import Mathlib

/-!
Shallow embedding of the LoadTester program (`src/main.go`, first variant):
the worker retry loop, per-attempt outcome classification, the result
collector, percentile computation, the CSV record sink, the worker-pool
dispatch system, and the per-run report.  Machine integers are modelled as
`Nat` (all the quantities involved — request counts, statuses, millisecond
durations — are non-negative and far from overflow in every claim
considered); Go `time.Duration` values are nanosecond counts, so a `Nat`
nanosecond count with `/ 1000000` for `Milliseconds()`.  Byte strings are
modelled as `String` with bytes identified with characters (only lengths
and equality of such strings matter here).  The float expressions
`int(float64(n)*0.9)` etc. are modelled by exact floor division, which
agrees with the float computation on every realizable sample size.
-/

namespace LoadTester

/-- `Config` from `main.go` lines 19-30.  Integer fields are `Nat`, per the
spec's ranges (Requests ≥ 0, Interval ≥ 0, Concurrency ≥ 1, MaxRetries ≥ 0,
RepeatCount ≥ 1). -/
structure Config where
  url : String
  requests : Nat
  interval : Nat
  repeatDelay : Nat
  repeatCount : Nat
  concurrency : Nat
  burst : Bool
  compress : Bool
  logRequests : Bool
  maxRetries : Nat

/-- `Result` from `main.go` lines 32-37: exactly the four fields of the Go
struct.  `duration` is a nanosecond count (`time.Duration`). -/
structure Result where
  requestID : Nat
  status : Nat
  error : String
  duration : Nat
deriving DecidableEq

/-- `Duration.Milliseconds()` on the nanosecond count. -/
def Result.durationMs (r : Result) : Nat := r.duration / 1000000

/-- Outcome of one attempt inside the worker loop (`main.go` lines 88-126):
`http.NewRequest` fails, `client.Do` fails (transport error), or a response
arrives with a status code and a body. -/
inductive AttemptOutcome where
  | newRequestError (msg : String)
  | transportError (msg : String)
  | response (status : Nat) (body : String)
deriving DecidableEq

/-- The body snippet read by `io.ReadAll(io.LimitReader(resp.Body, 200))`
(`main.go` line 113): the first 200 bytes of the body. -/
def bodySnippet (body : String) : String := ⟨body.data.take 200⟩

/-- Status field produced by one attempt: 0 on any transport-level failure
(`main.go` lines 91, 103), else the response status (line 114). -/
def attemptStatusOf : AttemptOutcome → Nat
  | .newRequestError _ => 0
  | .transportError _ => 0
  | .response s _ => s

/-- Error field produced by one attempt: the underlying error string on a
transport-level failure (`main.go` lines 91, 103), the formatted
`"HTTP %d: %s"` diagnostic when the status is ≥ 400 (lines 116-118), and
empty otherwise (line 115). -/
def attemptErrorOf : AttemptOutcome → String
  | .newRequestError msg => msg
  | .transportError msg => msg
  | .response s body =>
      if 400 ≤ s then "HTTP " ++ toString s ++ ": " ++ bodySnippet body else ""

/-- The `Result` value assigned to `r` by one attempt of the worker loop
(`main.go` lines 91, 103, 120), where `elapsed` is `time.Since(start)` at
that attempt's completion. -/
def attemptResult (reqID : Nat) (elapsed : Nat) (o : AttemptOutcome) : Result :=
  ⟨reqID, attemptStatusOf o, attemptErrorOf o, elapsed⟩

/-- Spec classification of one attempt: Success exactly when a response
arrived (no transport error) with status < 400. -/
def isSuccessOutcome : AttemptOutcome → Bool
  | .response s _ => decide (s < 400)
  | _ => false

/-- A transport-level failure carries a non-empty cause description (Go
`error` values have non-empty `Error()` strings). -/
def msgNonempty : AttemptOutcome → Prop
  | .newRequestError msg => msg ≠ ""
  | .transportError msg => msg ≠ ""
  | .response _ _ => True

/-- The retry loop `for attempt := 0; attempt <= cfg.MaxRetries; attempt++`
(`main.go` lines 88-126): run attempt `k` with `rem` further attempts
allowed; stop as soon as the produced `r` has empty `Error` (line 123-125),
otherwise continue; `r` keeps the value from the last executed attempt.
`outcomes k` / `elapsed k` give attempt `k`'s outcome and its
`time.Since(start)`. -/
def retryLoop (reqID : Nat) (outcomes : Nat → AttemptOutcome) (elapsed : Nat → Nat) :
    Nat → Nat → Result
  | k, 0 => attemptResult reqID (elapsed k) (outcomes k)
  | k, rem + 1 =>
      let r := attemptResult reqID (elapsed k) (outcomes k)
      if r.error = "" then r else retryLoop reqID outcomes elapsed (k + 1) rem

/-- The single `Result` the worker emits for one task (`main.go` line 128):
the value of `r` after the retry loop with budget `maxRetries`. -/
def workerResult (maxRetries reqID : Nat) (outcomes : Nat → AttemptOutcome)
    (elapsed : Nat → Nat) : Result :=
  retryLoop reqID outcomes elapsed 0 maxRetries

/-- Number of attempts the loop executes, starting at attempt `k` with
`rem` further attempts allowed. -/
def attemptsUsedAux (outcomes : Nat → AttemptOutcome) : Nat → Nat → Nat
  | _, 0 => 1
  | k, rem + 1 =>
      if attemptErrorOf (outcomes k) = "" then 1
      else 1 + attemptsUsedAux outcomes (k + 1) rem

/-- Number of attempts the worker executes for one task. -/
def attemptsUsed (maxRetries : Nat) (outcomes : Nat → AttemptOutcome) : Nat :=
  attemptsUsedAux outcomes 0 maxRetries

/-- 0-based index of the final (retained) attempt. -/
def retainedIdx (maxRetries : Nat) (outcomes : Nat → AttemptOutcome) : Nat :=
  attemptsUsed maxRetries outcomes - 1

theorem attemptResult_error (reqID elapsed : Nat) (o : AttemptOutcome) :
    (attemptResult reqID elapsed o).error = attemptErrorOf o := rfl

/-- Combined accounting for the retry loop, by induction on the remaining
budget: the attempt count is in `[1, rem+1]`, every attempt before the last
executed one failed, the loop ends on a success or on budget exhaustion,
and the loop's value is the last executed attempt's `Result`. -/
theorem retryLoop_spec (outcomes : Nat → AttemptOutcome) (elapsed : Nat → Nat)
    (reqID : Nat) :
    ∀ rem k,
      1 ≤ attemptsUsedAux outcomes k rem ∧
      attemptsUsedAux outcomes k rem ≤ rem + 1 ∧
      (∀ i, i + 1 < attemptsUsedAux outcomes k rem →
        attemptErrorOf (outcomes (k + i)) ≠ "") ∧
      (attemptErrorOf (outcomes (k + (attemptsUsedAux outcomes k rem - 1))) = "" ∨
        attemptsUsedAux outcomes k rem = rem + 1) ∧
      retryLoop reqID outcomes elapsed k rem =
        attemptResult reqID (elapsed (k + (attemptsUsedAux outcomes k rem - 1)))
          (outcomes (k + (attemptsUsedAux outcomes k rem - 1))) := by
  intro rem
  induction rem with
  | zero =>
      intro k
      refine ⟨le_refl 1, le_refl 1, ?_, Or.inr rfl, ?_⟩
      · intro i hi
        simp [attemptsUsedAux] at hi
      · simp [attemptsUsedAux, retryLoop]
  | succ rem ih =>
      intro k
      by_cases h : attemptErrorOf (outcomes k) = ""
      · refine ⟨?_, ?_, ?_, ?_, ?_⟩
        · simp [attemptsUsedAux, h]
        · simp [attemptsUsedAux, h]
        · intro i hi
          simp [attemptsUsedAux, h] at hi
        · left
          simp [attemptsUsedAux, h]
        · simp [attemptsUsedAux, retryLoop, attemptResult_error, h]
      · obtain ⟨ih1, ih2, ih3, ih4, ih5⟩ := ih (k + 1)
        have hA : attemptsUsedAux outcomes k (rem + 1) =
            1 + attemptsUsedAux outcomes (k + 1) rem := by
          simp [attemptsUsedAux, h]
        refine ⟨?_, ?_, ?_, ?_, ?_⟩
        · omega
        · omega
        · intro i hi
          rw [hA] at hi
          match i with
          | 0 => simpa using h
          | i + 1 =>
              have : i + 1 < attemptsUsedAux outcomes (k + 1) rem := by omega
              have := ih3 i this
              simpa [Nat.add_assoc, Nat.add_comm, Nat.add_left_comm] using this
        · have hidx : k + (attemptsUsedAux outcomes k (rem + 1) - 1) =
              (k + 1) + (attemptsUsedAux outcomes (k + 1) rem - 1) := by omega
          rw [hidx]
          rcases ih4 with h4 | h4
          · exact Or.inl h4
          · right; omega
        · have hidx : k + (attemptsUsedAux outcomes k (rem + 1) - 1) =
              (k + 1) + (attemptsUsedAux outcomes (k + 1) rem - 1) := by omega
          rw [hidx]
          rw [← ih5]
          simp [retryLoop, attemptResult_error, h]

theorem workerResult_eq_retained (maxRetries reqID : Nat)
    (outcomes : Nat → AttemptOutcome) (elapsed : Nat → Nat) :
    workerResult maxRetries reqID outcomes elapsed =
      attemptResult reqID (elapsed (retainedIdx maxRetries outcomes))
        (outcomes (retainedIdx maxRetries outcomes)) := by
  have h := (retryLoop_spec outcomes elapsed reqID maxRetries 0).2.2.2.2
  simpa [workerResult, attemptsUsed, retainedIdx] using h

/-- The `"HTTP %d: %s"` diagnostic string is never empty. -/
theorem httpDiagnostic_ne_empty (s : Nat) (body : String) :
    "HTTP " ++ toString s ++ ": " ++ bodySnippet body ≠ "" := by
  intro h
  have hl := congrArg String.length h
  rw [String.length_append, String.length_append, String.length_append] at hl
  have h1 : ("HTTP ").length = 5 := rfl
  have h2 : ("" : String).length = 0 := rfl
  omega

/-- An attempt's error string is empty exactly when the attempt was a
response with status < 400, provided transport errors carry non-empty
messages. -/
theorem attemptErrorOf_empty_iff (o : AttemptOutcome) (h : msgNonempty o) :
    (attemptErrorOf o = "" ↔ isSuccessOutcome o = true) := by
  cases o with
  | newRequestError msg =>
      simp [attemptErrorOf, isSuccessOutcome]
      exact h
  | transportError msg =>
      simp [attemptErrorOf, isSuccessOutcome]
      exact h
  | response s body =>
      by_cases hs : 400 ≤ s
      · simp [attemptErrorOf, isSuccessOutcome, hs, httpDiagnostic_ne_empty]
      · simp [attemptErrorOf, isSuccessOutcome, hs]
        omega

/-- The CSV header row written in `main` (line 241). -/
def csvHeader : List String := ["RunID", "RequestID", "Status", "Error", "Duration(ms)"]

/-- The per-request record forwarded to the report sink by the collector
(`main.go` lines 162-168): run id, request id, status, error, duration in
milliseconds — and nothing else. -/
def csvRow (run : Nat) (r : Result) : List String :=
  [toString run, toString r.requestID, toString r.status, r.error,
    toString r.durationMs]

/-- The shared accumulator threaded through all runs (`main.go` lines
252-254): cumulative failure and success counters and the cumulative
latency sample buffer (milliseconds, in arrival order). -/
structure Totals where
  totalFailed : Nat
  totalSucceeded : Nat
  allLatencies : List Nat
deriving DecidableEq

/-- Consuming one `Result` in the collector loop (`main.go` lines 161-179):
increment the failure counter when `Error` is non-empty, else the success
counter, and append the millisecond duration to the latency buffer. -/
def collectOne (s : Totals) (r : Result) : Totals :=
  if r.error ≠ "" then
    { s with totalFailed := s.totalFailed + 1,
             allLatencies := s.allLatencies ++ [r.durationMs] }
  else
    { s with totalSucceeded := s.totalSucceeded + 1,
             allLatencies := s.allLatencies ++ [r.durationMs] }

/-- Draining one run's `Result` stream, in arrival order. -/
def collectRun (s : Totals) (rs : List Result) : Totals :=
  rs.foldl collectOne s

/-- Ascending sort, modelling `sort.Slice(s, func(i, j) { s[i] < s[j] })`
(`main.go` lines 191, 268). -/
def sortAsc (l : List Nat) : List Nat := List.insertionSort (· ≤ ·) l

/-- `len(sorted)/2` (`main.go` lines 192, 271). -/
def p50Index (n : Nat) : Nat := n / 2

/-- `int(float64(len(sorted))*0.9)` (`main.go` lines 193, 272), modelled by
exact floor division. -/
def p90Index (n : Nat) : Nat := n * 9 / 10

/-- `int(float64(len(sorted))*0.99)` (`main.go` lines 194, 273), modelled
by exact floor division. -/
def p99Index (n : Nat) : Nat := n * 99 / 100

/-- The final-summary percentile computation (`main.go` lines 268-274):
sort all latencies ascending; when the sample is non-empty select the
nearest-rank elements, otherwise report `(0, 0, 0)`. -/
def overallPercentiles (lats : List Nat) : Nat × Nat × Nat :=
  let sorted := sortAsc lats
  if 0 < sorted.length then
    (sorted.getD (p50Index sorted.length) 0,
     sorted.getD (p90Index sorted.length) 0,
     sorted.getD (p99Index sorted.length) 0)
  else (0, 0, 0)

/-- The per-run completion report printed by `runLoad` (`main.go` lines
187-198): computed from the CURRENT shared accumulator (which holds every
latency and count accumulated so far, across runs); skipped entirely when
the accumulated sample is empty. -/
structure RunReport where
  requests : Nat
  success : Nat
  failed : Nat
  p50 : Nat
  p90 : Nat
  p99 : Nat
deriving DecidableEq

/-- `runLoad`'s end-of-run report (`main.go` lines 187-198) as a function
of the accumulator state after the run's results are drained. -/
def runReportOf (cfg : Config) (s : Totals) : Option RunReport :=
  let sorted := sortAsc s.allLatencies
  if 0 < sorted.length then
    some ⟨cfg.requests, s.totalSucceeded, s.totalFailed,
          sorted.getD (p50Index sorted.length) 0,
          sorted.getD (p90Index sorted.length) 0,
          sorted.getD (p99Index sorted.length) 0⟩
  else none

/-- Modelled from the spec: the RunStats the spec's ResultCollector
contract prescribes for one run — SuccessCount, FailureCount and the
percentiles computed over only that run's Results, starting from a fresh
accumulator. -/
def runReportPerRun (cfg : Config) (rs : List Result) : Option RunReport :=
  runReportOf cfg (collectRun ⟨0, 0, []⟩ rs)

/-- The worker's pacing sleep duration in milliseconds (`main.go` line
132): `time.Duration(float64(Interval)/float64(Requests)*1000)` whole
milliseconds, modelled by exact floor division. -/
def pacingDelayMs (cfg : Config) : Nat := cfg.interval * 1000 / cfg.requests

/-- Observable actions of a worker processing one task (`main.go` lines
85-134). -/
inductive WorkerEvent where
  | emit (r : Result)
  | pause (ms : Nat)
deriving DecidableEq

/-- What the worker does for one task `j` (`main.go` lines 85-134): run the
retry loop, send the single `Result`, then — only when not in burst mode
and `Interval > 0` — sleep for the pacing delay before taking the next
task. -/
def taskEvents (cfg : Config) (outcomes : Nat → AttemptOutcome)
    (elapsed : Nat → Nat) (j : Nat) : List WorkerEvent :=
  WorkerEvent.emit (workerResult cfg.maxRetries j outcomes elapsed) ::
    (if cfg.burst = false ∧ 0 < cfg.interval then
      [WorkerEvent.pause (pacingDelayMs cfg)] else [])

/-- Per-task attempt data: for task `j`, `(oc j).1` gives the outcome of
each of its attempts and `(oc j).2` the elapsed time at each attempt's
completion. -/
abbrev Oracle := Nat → (Nat → AttemptOutcome) × (Nat → Nat)

/-- State of one run's dispatch (`runLoad`, `main.go` lines 140-154): the
jobs not yet taken from the `jobs` channel (in FIFO order), the pool of
`Concurrency` workers (`some j` while busy with task `j`), and the
`Result`s sent so far, in emission order. -/
structure PoolState where
  pending : List Nat
  workers : List (Option Nat)
  emitted : List Result
deriving DecidableEq

/-- One scheduler step of a run: an idle worker takes the next job from
the channel (`for reqID := range jobs`, line 85), or a busy worker
finishes its task's entire retry sequence and sends the single `Result`
(line 128), becoming idle. -/
inductive Step (M : Nat) (oc : Oracle) : PoolState → PoolState → Prop where
  | take (w j : Nat) (rest : List Nat) (s : PoolState) :
      s.pending = j :: rest → s.workers[w]? = some none →
      Step M oc s ⟨rest, s.workers.set w (some j), s.emitted⟩
  | finish (w j : Nat) (s : PoolState) :
      s.workers[w]? = some (some j) →
      Step M oc s ⟨s.pending, s.workers.set w none,
        s.emitted ++ [workerResult M j (oc j).1 (oc j).2]⟩

/-- Start of a run (`main.go` lines 140-154): jobs `1..R` queued in FIFO
order, `C` idle workers, nothing emitted. -/
def initState (R C : Nat) : PoolState :=
  ⟨List.range' 1 R, List.replicate C none, []⟩

/-- States a run with `R` requests and `C` workers can reach. -/
def Reachable (M : Nat) (oc : Oracle) (R C : Nat) (s : PoolState) : Prop :=
  Relation.ReflTransGen (Step M oc) (initState R C) s

/-- A state with no step left: the run has completed. -/
def Terminal (M : Nat) (oc : Oracle) (s : PoolState) : Prop :=
  ∀ s', ¬ Step M oc s s'

/-- The tasks currently in the attempting state: those held by a busy
worker. -/
def attempting (s : PoolState) : List Nat := s.workers.filterMap id

/-- All request ids in the system: queued, attempting, or emitted. -/
def idsMulti (s : PoolState) : Multiset Nat :=
  (s.pending : Multiset Nat) + (attempting s : Multiset Nat) +
    ((s.emitted.map Result.requestID : List Nat) : Multiset Nat)

/-- Results counted as success by the collector (`Error == ""`). -/
def countSuccess (rs : List Result) : Nat :=
  (rs.filter (fun r => r.error == "")).length

/-- Results counted as failure by the collector (`Error != ""`). -/
def countFailure (rs : List Result) : Nat :=
  (rs.filter (fun r => !(r.error == ""))).length

theorem workerResult_requestID (M j : Nat) (outcomes : Nat → AttemptOutcome)
    (elapsed : Nat → Nat) : (workerResult M j outcomes elapsed).requestID = j := by
  rw [workerResult_eq_retained]; rfl

theorem filterMap_id_set_some {α : Type} (l : List (Option α)) (w : Nat) (j : α)
    (h : l[w]? = some none) :
    ((l.set w (some j)).filterMap id).Perm (j :: l.filterMap id) := by
  induction l generalizing w with
  | nil => simp at h
  | cons x xs ih =>
      cases w with
      | zero =>
          simp at h
          subst h
          simp [List.set]
      | succ w =>
          simp at h
          cases x with
          | none => simpa [List.set] using ih w h
          | some a =>
              simp only [List.set, List.filterMap_cons, id]
              exact ((ih w h).cons a).trans (List.Perm.swap j a _)

theorem filterMap_id_set_none {α : Type} (l : List (Option α)) (w : Nat) (j : α)
    (h : l[w]? = some (some j)) :
    (l.filterMap id).Perm (j :: (l.set w none).filterMap id) := by
  induction l generalizing w with
  | nil => simp at h
  | cons x xs ih =>
      cases w with
      | zero =>
          simp at h
          subst h
          simp [List.set]
      | succ w =>
          simp at h
          cases x with
          | none => simpa [List.set] using ih w h
          | some a =>
              simp only [List.set, List.filterMap_cons, id]
              exact ((ih w h).cons a).trans (List.Perm.swap j a _)

theorem step_workers_length {M : Nat} {oc : Oracle} {s s' : PoolState}
    (h : Step M oc s s') : s'.workers.length = s.workers.length := by
  cases h <;> simp

/-- Every step preserves the multiset of request ids in the system. -/
theorem idsMulti_step {M : Nat} {oc : Oracle} {s s' : PoolState}
    (h : Step M oc s s') : idsMulti s' = idsMulti s := by
  cases h with
  | take w j rest s hp hw =>
      have h1 : (((s.workers.set w (some j)).filterMap id : List Nat) : Multiset Nat)
          = ((j :: s.workers.filterMap id : List Nat) : Multiset Nat) :=
        Multiset.coe_eq_coe.mpr (filterMap_id_set_some s.workers w j hw)
      simp only [idsMulti, attempting, hp, h1, Multiset.cons_coe]
      simp [Multiset.add_cons, Multiset.cons_add]
  | finish w j s hw =>
      have h1 : ((s.workers.filterMap id : List Nat) : Multiset Nat)
          = ((j :: (s.workers.set w none).filterMap id : List Nat) : Multiset Nat) :=
        Multiset.coe_eq_coe.mpr (filterMap_id_set_none s.workers w j hw)
      simp only [idsMulti, attempting, h1, Multiset.cons_coe, List.map_append,
        List.map_cons, List.map_nil, workerResult_requestID]
      simp [Multiset.add_cons, Multiset.cons_add]
      have hfin : (List.filterMap id (s.workers.set w none) ++
          (List.map Result.requestID s.emitted ++ [j])).Perm
          (j :: (List.filterMap id (s.workers.set w none) ++
            List.map Result.requestID s.emitted)) := by
        rw [← List.append_assoc]
        exact List.perm_append_singleton j _
      exact List.Perm.append_left _ hfin

theorem filterMap_id_replicate_none {α : Type} (C : Nat) :
    (List.replicate C (none : Option α)).filterMap id = [] := by
  induction C with
  | zero => rfl
  | succ C ih => simp [List.replicate_succ, List.filterMap_cons, ih]

theorem reachable_workers_length {M : Nat} {oc : Oracle} {R C : Nat} {s : PoolState}
    (h : Reachable M oc R C s) : s.workers.length = C := by
  induction h with
  | refl => simp [initState]
  | tail h1 h2 ih => rw [step_workers_length h2, ih]

/-- At every reachable state the request ids in the system are exactly
`1..R`. -/
theorem reachable_idsMulti {M : Nat} {oc : Oracle} {R C : Nat} {s : PoolState}
    (h : Reachable M oc R C s) :
    idsMulti s = ((List.range' 1 R : List Nat) : Multiset Nat) := by
  induction h with
  | refl => simp [idsMulti, initState, attempting, filterMap_id_replicate_none]
  | tail h1 h2 ih => rw [idsMulti_step h2, ih]

/-- In a terminal reachable state (with at least one worker) the channel is
drained and every worker is idle. -/
theorem terminal_drained {M : Nat} {oc : Oracle} {R C : Nat} {s : PoolState}
    (hC : 1 ≤ C) (hreach : Reachable M oc R C s) (hterm : Terminal M oc s) :
    s.pending = [] ∧ attempting s = [] := by
  have hall : ∀ x ∈ s.workers, x = (none : Option Nat) := by
    intro x hx
    cases x with
    | none => rfl
    | some j =>
        obtain ⟨w, hlt, hget⟩ := List.getElem_of_mem hx
        have hw : s.workers[w]? = some (some j) := by
          rw [List.getElem?_eq_getElem hlt, hget]
        exact absurd (Step.finish w j s hw) (hterm _)
  have hatt : attempting s = [] := by
    simp only [attempting]
    exact List.filterMap_eq_nil_iff.mpr hall
  refine ⟨?_, hatt⟩
  cases hp : s.pending with
  | nil => rfl
  | cons j rest =>
      have hlen : s.workers.length = C := reachable_workers_length hreach
      have h0 : 0 < s.workers.length := by omega
      have hmem : s.workers[0] ∈ s.workers := List.getElem_mem h0
      have hw : s.workers[0]? = some none := by
        rw [List.getElem?_eq_getElem h0, hall _ hmem]
      exact absurd (Step.take 0 j rest s hp hw) (hterm _)

theorem countSuccess_add_countFailure (rs : List Result) :
    countSuccess rs + countFailure rs = rs.length := by
  induction rs with
  | nil => rfl
  | cons r rs ih =>
      simp only [countSuccess, countFailure, List.filter_cons] at *
      by_cases h : r.error = "" <;> simp [h] <;> omega

/-- `Nat.floor` of the exact fraction `a/b` of `n` is floor division. -/
theorem floor_fraction (a b n : Nat) :
    Nat.floor ((a : ℚ) / b * n) = a * n / b := by
  have h : (a : ℚ) / b * n = ((a * n : Nat) : ℚ) / ((b : Nat) : ℚ) := by
    push_cast; ring
  rw [h, Nat.floor_div_nat, Nat.floor_natCast]

/-- The sample of 100 ascending values `[10, 20, ..., 1000]`. -/
def sample100 : List Nat := (List.range 100).map (fun i => 10 * (i + 1))

/-- C2: for every latency sample the percentile at fraction f is obtained
by sorting the sample ascending and selecting the 0-based element at index
⌊f × N⌋ (which is always in bounds for a non-empty sample); in particular
the sample [10,20,...,1000] has p50 = 510 and p90 = 910, and the empty
sample yields percentiles (0, 0, 0) without error. -/
theorem C2_percentile_nearest_rank :
    (∀ n : Nat,
       p50Index n = Nat.floor ((1 : ℚ) / 2 * n) ∧
       p90Index n = Nat.floor ((9 : ℚ) / 10 * n) ∧
       p99Index n = Nat.floor ((99 : ℚ) / 100 * n)) ∧
    (∀ n : Nat, 0 < n → p50Index n < n ∧ p90Index n < n ∧ p99Index n < n) ∧
    (∀ lats : List Nat,
       (sortAsc lats).Perm lats ∧ (sortAsc lats).Sorted (· ≤ ·)) ∧
    (overallPercentiles sample100).1 = 510 ∧
    (overallPercentiles sample100).2.1 = 910 ∧
    overallPercentiles [] = (0, 0, 0) := by
  refine ⟨?_, ?_, ?_, ?_, ?_, rfl⟩
  · intro n
    refine ⟨?_, ?_, ?_⟩
    · have h := floor_fraction 1 2 n
      push_cast at h
      rw [h]
      simp [p50Index]
    · have h := floor_fraction 9 10 n
      push_cast at h
      rw [h]
      simp [p90Index, Nat.mul_comm]
    · have h := floor_fraction 99 100 n
      push_cast at h
      rw [h]
      simp [p99Index, Nat.mul_comm]
  · intro n hn
    refine ⟨?_, ?_, ?_⟩
    · simp only [p50Index]; omega
    · simp only [p90Index]
      rw [Nat.div_lt_iff_lt_mul (by norm_num)]
      omega
    · simp only [p99Index]
      rw [Nat.div_lt_iff_lt_mul (by norm_num)]
      omega
  · intro lats
    exact ⟨List.perm_insertionSort _ lats, List.sorted_insertionSort _ lats⟩
  · decide
  · decide

/-- C4: with retry budget `MaxRetries = M`, the worker executes between 1
and `M + 1` attempts for a task: every attempt before the final executed
one failed (so it stops immediately after the first success, retrying
otherwise), and it finalizes only on a success or on budget exhaustion. -/
theorem C4_attempt_budget (M : Nat) (outcomes : Nat → AttemptOutcome) :
    1 ≤ attemptsUsed M outcomes ∧
    attemptsUsed M outcomes ≤ M + 1 ∧
    (∀ i, i + 1 < attemptsUsed M outcomes → attemptErrorOf (outcomes i) ≠ "") ∧
    (attemptErrorOf (outcomes (retainedIdx M outcomes)) = "" ∨
      attemptsUsed M outcomes = M + 1) := by
  obtain ⟨h1, h2, h3, h4, _⟩ := retryLoop_spec outcomes (fun _ => 0) 0 M 0
  refine ⟨h1, h2, ?_, ?_⟩
  · intro i hi
    have := h3 i (by simpa [attemptsUsed] using hi)
    simpa [attemptsUsed] using this
  · simpa [attemptsUsed, retainedIdx] using h4

/-- C5: the worker's single emitted Result is exactly the last executed
attempt's Result (no field of an earlier failed attempt survives), its
Error is empty iff that final attempt succeeded (a response with status
< 400), and its Duration is the elapsed time from the first attempt's
start to the final attempt's completion. -/
theorem C5_final_result (M reqID : Nat) (outcomes : Nat → AttemptOutcome)
    (elapsed : Nat → Nat) (hmsg : ∀ k, msgNonempty (outcomes k)) :
    workerResult M reqID outcomes elapsed =
      attemptResult reqID (elapsed (retainedIdx M outcomes))
        (outcomes (retainedIdx M outcomes)) ∧
    ((workerResult M reqID outcomes elapsed).error = "" ↔
      isSuccessOutcome (outcomes (retainedIdx M outcomes)) = true) ∧
    (workerResult M reqID outcomes elapsed).duration =
      elapsed (retainedIdx M outcomes) := by
  have h := workerResult_eq_retained M reqID outcomes elapsed
  refine ⟨h, ?_, by rw [h]; rfl⟩
  rw [h, attemptResult_error]
  exact attemptErrorOf_empty_iff _ (hmsg _)

/-- Concrete attempt outcomes for the C5 witness: every attempt is an
HTTP 500 response. -/
def ocC5 : Nat → AttemptOutcome := fun _ => .response 500 "oops"

/-- C5 witness at `M = 1`, `reqID = 4`. -/
theorem C5_final_result_witness :
    (∀ k, msgNonempty (ocC5 k)) ∧
    (workerResult 1 4 ocC5 (fun k => k + 10) =
       attemptResult 4 ((fun k : Nat => k + 10) (retainedIdx 1 ocC5))
         (ocC5 (retainedIdx 1 ocC5)) ∧
     ((workerResult 1 4 ocC5 (fun k => k + 10)).error = "" ↔
       isSuccessOutcome (ocC5 (retainedIdx 1 ocC5)) = true) ∧
     (workerResult 1 4 ocC5 (fun k => k + 10)).duration =
       (fun k : Nat => k + 10) (retainedIdx 1 ocC5)) :=
  ⟨fun _ => trivial, C5_final_result 1 4 ocC5 (fun k => k + 10) (fun _ => trivial)⟩

/-- C7: an attempt's error is empty exactly when it is a response with
status < 400 (no transport error); a transport failure yields status 0 and
the underlying cause as the error; a status ≥ 400 yields the diagnostic
with the status code and a body snippet of at most 200 bytes. -/
theorem C7_attempt_classification (o : AttemptOutcome) (hmsg : msgNonempty o) :
    ((attemptErrorOf o = "") ↔ (∃ s body, o = .response s body ∧ s < 400)) ∧
    (∀ msg, o = .transportError msg →
       attemptStatusOf o = 0 ∧ attemptErrorOf o = msg) ∧
    (∀ msg, o = .newRequestError msg →
       attemptStatusOf o = 0 ∧ attemptErrorOf o = msg) ∧
    (∀ s body, o = .response s body → 400 ≤ s →
       attemptErrorOf o = "HTTP " ++ toString s ++ ": " ++ bodySnippet body ∧
       (bodySnippet body).length ≤ 200) := by
  refine ⟨?_, ?_, ?_, ?_⟩
  · rw [attemptErrorOf_empty_iff o hmsg]
    cases o with
    | newRequestError msg => simp [isSuccessOutcome]
    | transportError msg => simp [isSuccessOutcome]
    | response s body =>
        simp only [isSuccessOutcome, decide_eq_true_eq]
        constructor
        · intro hs
          exact ⟨s, body, rfl, hs⟩
        · rintro ⟨s', body', heq, hs⟩
          cases heq
          exact hs
  · rintro msg rfl
    exact ⟨rfl, rfl⟩
  · rintro msg rfl
    exact ⟨rfl, rfl⟩
  · rintro s body rfl hs
    refine ⟨by simp [attemptErrorOf, hs], ?_⟩
    have hlen : (bodySnippet body).length = (body.data.take 200).length := rfl
    rw [hlen]
    exact List.length_take_le 200 body.data

/-- C7 witness at a 404 response. -/
theorem C7_attempt_classification_witness :
    msgNonempty (.response 404 "missing") ∧
    (((attemptErrorOf (.response 404 "missing") = "") ↔
       (∃ s body, AttemptOutcome.response 404 "missing" = .response s body ∧ s < 400)) ∧
     (∀ msg, AttemptOutcome.response 404 "missing" = .transportError msg →
        attemptStatusOf (.response 404 "missing") = 0 ∧
        attemptErrorOf (.response 404 "missing") = msg) ∧
     (∀ msg, AttemptOutcome.response 404 "missing" = .newRequestError msg →
        attemptStatusOf (.response 404 "missing") = 0 ∧
        attemptErrorOf (.response 404 "missing") = msg) ∧
     (∀ s body, AttemptOutcome.response 404 "missing" = .response s body → 400 ≤ s →
        attemptErrorOf (.response 404 "missing") =
          "HTTP " ++ toString s ++ ": " ++ bodySnippet body ∧
        (bodySnippet body).length ≤ 200)) :=
  ⟨trivial, C7_attempt_classification (.response 404 "missing") trivial⟩

theorem collectOne_counts (s : Totals) (r : Result) :
    (collectOne s r).totalSucceeded + (collectOne s r).totalFailed =
      s.totalSucceeded + s.totalFailed + 1 ∧
    (collectOne s r).allLatencies.length = s.allLatencies.length + 1 := by
  by_cases h : r.error = "" <;> simp [collectOne, h] <;> omega

theorem collectRun_counts (rs : List Result) (s : Totals) :
    (collectRun s rs).totalSucceeded + (collectRun s rs).totalFailed =
      s.totalSucceeded + s.totalFailed + rs.length ∧
    (collectRun s rs).allLatencies.length = s.allLatencies.length + rs.length := by
  induction rs generalizing s with
  | nil => simp [collectRun]
  | cons r rs ih =>
      have h1 := collectOne_counts s r
      have h2 := ih (collectOne s r)
      simp only [collectRun, List.foldl_cons, List.length_cons] at *
      omega

theorem foldl_collectRun_counts (runs : List (List Result)) (R : Nat)
    (heach : ∀ rs ∈ runs, rs.length = R) (s : Totals) :
    (runs.foldl collectRun s).totalSucceeded + (runs.foldl collectRun s).totalFailed =
      s.totalSucceeded + s.totalFailed + R * runs.length ∧
    (runs.foldl collectRun s).allLatencies.length =
      s.allLatencies.length + R * runs.length := by
  induction runs generalizing s with
  | nil => simp
  | cons rs runs ih =>
      have hr : rs.length = R := heach rs (by simp)
      have h1 := collectRun_counts rs s
      have h2 := ih (fun l hl => heach l (by simp [hl])) (collectRun s rs)
      simp only [List.foldl_cons, List.length_cons] at *
      rw [hr] at h1
      constructor
      · rw [h2.1, h1.1, Nat.mul_succ]
        ring
      · rw [h2.2, h1.2, Nat.mul_succ]
        ring

/-- C10: consuming one Result increments exactly one of the two counters
and appends exactly one latency sample, so whenever the collector is
quiescent the counters sum to the buffer length, and after draining
`RepeatCount` runs of `Requests` Results each both equal
`Requests × RepeatCount`. -/
theorem C10_collector_invariant (runs : List (List Result)) (R : Nat)
    (heach : ∀ rs ∈ runs, rs.length = R) :
    (∀ s r, (collectOne s r).totalSucceeded + (collectOne s r).totalFailed =
              s.totalSucceeded + s.totalFailed + 1 ∧
            (collectOne s r).allLatencies.length = s.allLatencies.length + 1) ∧
    (∀ s rs, s.totalSucceeded + s.totalFailed = s.allLatencies.length →
       (collectRun s rs).totalSucceeded + (collectRun s rs).totalFailed =
         (collectRun s rs).allLatencies.length) ∧
    ((runs.foldl collectRun ⟨0, 0, []⟩).totalSucceeded +
        (runs.foldl collectRun ⟨0, 0, []⟩).totalFailed = R * runs.length ∧
      (runs.foldl collectRun ⟨0, 0, []⟩).allLatencies.length = R * runs.length) := by
  refine ⟨collectOne_counts, ?_, ?_⟩
  · intro s rs hq
    have h := collectRun_counts rs s
    omega
  · have h := foldl_collectRun_counts runs R heach ⟨0, 0, []⟩
    simpa using h

/-- C10 witness: two runs of one Result each. -/
theorem C10_collector_invariant_witness :
    (∀ rs ∈ [[(⟨1, 200, "", 5000000⟩ : Result)], [⟨1, 500, "HTTP 500: x", 9000000⟩]],
       rs.length = 1) ∧
    ((∀ s r, (collectOne s r).totalSucceeded + (collectOne s r).totalFailed =
               s.totalSucceeded + s.totalFailed + 1 ∧
             (collectOne s r).allLatencies.length = s.allLatencies.length + 1) ∧
     (∀ s rs, s.totalSucceeded + s.totalFailed = s.allLatencies.length →
        (collectRun s rs).totalSucceeded + (collectRun s rs).totalFailed =
          (collectRun s rs).allLatencies.length) ∧
     (([[(⟨1, 200, "", 5000000⟩ : Result)], [⟨1, 500, "HTTP 500: x", 9000000⟩]].foldl
          collectRun ⟨0, 0, []⟩).totalSucceeded +
        ([[(⟨1, 200, "", 5000000⟩ : Result)], [⟨1, 500, "HTTP 500: x", 9000000⟩]].foldl
          collectRun ⟨0, 0, []⟩).totalFailed = 1 * 2 ∧
      ([[(⟨1, 200, "", 5000000⟩ : Result)], [⟨1, 500, "HTTP 500: x", 9000000⟩]].foldl
          collectRun ⟨0, 0, []⟩).allLatencies.length = 1 * 2)) :=
  ⟨by decide, C10_collector_invariant _ 1 (by decide)⟩

/-- Configuration for the C3 evaluation: Requests = 2, RepeatCount = 2. -/
def cfgC3 : Config :=
  ⟨"http://example.com", 2, 0, 0, 2, 2, true, false, false, 0⟩

/-- Run 1's Results: two successes of 100 ms each. -/
def run1C3 : List Result :=
  [⟨1, 200, "", 100000000⟩, ⟨2, 200, "", 100000000⟩]

/-- Run 2's Results: two successes of 300 ms and 500 ms. -/
def run2C3 : List Result :=
  [⟨1, 200, "", 300000000⟩, ⟨2, 200, "", 500000000⟩]

/-- C3 is violated by the code: the report printed when run 2 completes is
computed from the cumulative counters and the cumulative latency buffer
(Success = 4, p50 = 300 ms over all four samples), not from run 2's own
two Results (Success = 2, p50 = 500 ms) — even though the code's own
comment says "Calculate per-run latency". -/
theorem C3_run_report_uses_cumulative_state :
    runReportOf cfgC3 (collectRun (collectRun ⟨0, 0, []⟩ run1C3) run2C3) =
      some ⟨2, 4, 0, 300, 500, 500⟩ ∧
    runReportPerRun cfgC3 run2C3 = some ⟨2, 2, 0, 500, 500, 500⟩ ∧
    runReportOf cfgC3 (collectRun (collectRun ⟨0, 0, []⟩ run1C3) run2C3) ≠
      runReportPerRun cfgC3 run2C3 := by
  refine ⟨by decide, by decide, by decide⟩

/-- C6 counterexample: the CSV record has no Retries column — the header
has exactly the five fields RunID, RequestID, Status, Error, Duration(ms),
and the forwarded row has exactly five entries. -/
theorem C6_no_retries_field :
    "Retries" ∉ csvHeader ∧
    (csvRow 3 ⟨7, 200, "", 5000000⟩).length = 5 ∧
    csvHeader.length = 5 := by
  refine ⟨by decide, rfl, rfl⟩

/-- C6 amended: a Result consists of exactly RequestID, Status, Error and
Duration (two Results agreeing on these four fields are equal — there is
no RetryCount field), and the record forwarded to the report sink is
exactly RunID, RequestID, Status, Error, Duration(ms), with no Retries
field. -/
theorem C6_record_fields (run : Nat) (r : Result) :
    (∀ r₁ r₂ : Result, r₁.requestID = r₂.requestID → r₁.status = r₂.status →
       r₁.error = r₂.error → r₁.duration = r₂.duration → r₁ = r₂) ∧
    csvHeader = ["RunID", "RequestID", "Status", "Error", "Duration(ms)"] ∧
    "Retries" ∉ csvHeader ∧
    csvRow run r = [toString run, toString r.requestID, toString r.status,
      r.error, toString r.durationMs] ∧
    (csvRow run r).length = csvHeader.length := by
  refine ⟨?_, rfl, by decide, rfl, rfl⟩
  intro r₁ r₂ h1 h2 h3 h4
  cases r₁
  cases r₂
  simp_all

/-- Configuration for the C8 counterexample: Interval = 1 s, Requests = 3,
Burst = false. -/
def cfgC8 : Config :=
  ⟨"http://example.com", 3, 1, 0, 1, 2, false, false, false, 0⟩

/-- C8 counterexample: with Interval = 1 and Requests = 3 the worker
sleeps 333 whole milliseconds, which is not exactly
Interval / Requests = 1/3 s (≈ 333.33 ms). -/
theorem C8_delay_not_exact :
    pacingDelayMs cfgC8 = 333 ∧
    ((pacingDelayMs cfgC8 : ℚ) / 1000 ≠ (cfgC8.interval : ℚ) / (cfgC8.requests : ℚ)) := by
  refine ⟨rfl, ?_⟩
  have h1 : pacingDelayMs cfgC8 = 333 := rfl
  have h2 : cfgC8.interval = 1 := rfl
  have h3 : cfgC8.requests = 3 := rfl
  rw [h1, h2, h3]
  norm_num

/-- C8 amended: when Burst = false and Interval > 0 the worker, after
emitting each task's Result, pauses for ⌊Interval × 1000 / Requests⌋
milliseconds before taking its next task; when Interval = 0 (or in burst
mode) no pause occurs at all, so timing is the same as burst mode. -/
theorem C8_worker_pacing (cfg : Config) (outcomes : Nat → AttemptOutcome)
    (elapsed : Nat → Nat) (j : Nat) :
    (cfg.burst = false → 0 < cfg.interval →
       taskEvents cfg outcomes elapsed j =
         [WorkerEvent.emit (workerResult cfg.maxRetries j outcomes elapsed),
          WorkerEvent.pause (cfg.interval * 1000 / cfg.requests)]) ∧
    (cfg.interval = 0 →
       taskEvents cfg outcomes elapsed j =
         [WorkerEvent.emit (workerResult cfg.maxRetries j outcomes elapsed)]) ∧
    (cfg.burst = true →
       taskEvents cfg outcomes elapsed j =
         [WorkerEvent.emit (workerResult cfg.maxRetries j outcomes elapsed)]) := by
  refine ⟨?_, ?_, ?_⟩
  · intro hb hi
    simp [taskEvents, pacingDelayMs, hb, hi]
  · intro hi
    simp [taskEvents, hi]
  · intro hb
    simp [taskEvents, hb]

/-- C8 amended witness: with `cfgC8` the worker emits and then pauses
333 ms; with Interval = 0 no pause occurs. -/
theorem C8_worker_pacing_witness :
    cfgC8.burst = false ∧ 0 < cfgC8.interval ∧
    taskEvents cfgC8 ocC5 (fun k => k) 1 =
      [WorkerEvent.emit (workerResult cfgC8.maxRetries 1 ocC5 (fun k => k)),
       WorkerEvent.pause (cfgC8.interval * 1000 / cfgC8.requests)] :=
  ⟨rfl, by decide, (C8_worker_pacing cfgC8 ocC5 (fun k => k) 1).1 rfl (by decide)⟩

/-- C1: when a run with `Requests = R` reaches a terminal state, exactly
`R` Results have been produced (and hence consumed by the collector, which
drains the stream), their RequestIDs are exactly `1..R` each appearing
once, and the collector's success count plus failure count equals `R`.
For `R = 0` the initial state is terminal with no Results. -/
theorem C1_run_accounting (M R C : Nat) (oc : Oracle) (s : PoolState)
    (hC : 1 ≤ C) (hreach : Reachable M oc R C s) (hterm : Terminal M oc s) :
    s.emitted.length = R ∧
    (s.emitted.map Result.requestID).Perm (List.range' 1 R) ∧
    countSuccess s.emitted + countFailure s.emitted = R := by
  obtain ⟨hpend, hatt⟩ := terminal_drained hC hreach hterm
  have hids := reachable_idsMulti hreach
  simp only [idsMulti, hpend, hatt] at hids
  simp only [Multiset.coe_nil, zero_add, add_zero] at hids
  have hperm : (s.emitted.map Result.requestID).Perm (List.range' 1 R) := by
    exact Multiset.coe_eq_coe.mp (by simpa using hids)
  have hlen : s.emitted.length = R := by
    have := hperm.length_eq
    simpa [List.length_range'] using this
  exact ⟨hlen, hperm, by rw [countSuccess_add_countFailure, hlen]⟩

/-- Attempt oracle for concrete executions: every attempt of every task is
a 204 response completing at elapsed time 7. -/
def ocW : Oracle := fun _ => (fun _ => .response 204 "", fun _ => 7)

/-- The terminal state of the 1-request, 1-worker execution. -/
def sW : PoolState := ⟨[], [none], [⟨1, 204, "", 7⟩]⟩

theorem reachable_sW : Reachable 0 ocW 1 1 sW :=
  Relation.ReflTransGen.head
    (Step.take 0 1 [] (initState 1 1) rfl rfl)
    (Relation.ReflTransGen.head
      (Step.finish 0 1 (⟨[], [some 1], []⟩ : PoolState) rfl)
      Relation.ReflTransGen.refl)

theorem terminal_sW : Terminal 0 ocW sW := by
  intro s' h
  cases h with
  | take w j rest _ hp hw => simp [sW] at hp
  | finish w j _ hw =>
      cases w with
      | zero => simp [sW] at hw
      | succ w => simp [sW] at hw

/-- C1 witness: the complete 1-request, 1-worker execution. -/
theorem C1_run_accounting_witness :
    (1 ≤ 1) ∧ Reachable 0 ocW 1 1 sW ∧ Terminal 0 ocW sW ∧
    (sW.emitted.length = 1 ∧
     (sW.emitted.map Result.requestID).Perm (List.range' 1 1) ∧
     countSuccess sW.emitted + countFailure sW.emitted = 1) :=
  ⟨le_refl 1, reachable_sW, terminal_sW,
    C1_run_accounting 0 1 1 ocW sW (le_refl 1) reachable_sW terminal_sW⟩

/-- C9: at every reachable state at most `Concurrency` tasks are in the
attempting state (each of the `C` pool workers holds at most one task,
acting as one permit of the admission gate); across any step, a task can
enter the attempting state only by being taken from the pending queue
(acquisition before its first attempt), and it leaves the attempting state
only in the step that appends its entire retry sequence's single Result
(release only after the Result is produced). -/
theorem C9_concurrency_bound (M R C : Nat) (oc : Oracle) (s s' : PoolState)
    (j : Nat) (hreach : Reachable M oc R C s) (hstep : Step M oc s s') :
    (attempting s).length ≤ C ∧
    (attempting s').length ≤ C ∧
    (j ∈ attempting s' → j ∈ attempting s ∨ j ∈ s.pending) ∧
    (j ∈ attempting s → j ∉ attempting s' →
       s'.emitted = s.emitted ++ [workerResult M j (oc j).1 (oc j).2]) := by
  have hlen : s.workers.length = C := reachable_workers_length hreach
  have hb : (attempting s).length ≤ C := by
    rw [← hlen]
    exact List.length_filterMap_le id s.workers
  have hb' : (attempting s').length ≤ C := by
    rw [← hlen, ← step_workers_length hstep]
    exact List.length_filterMap_le id s'.workers
  refine ⟨hb, hb', ?_, ?_⟩
  · intro hj
    cases hstep with
    | take w j0 rest _ hp hw =>
        have hperm := filterMap_id_set_some s.workers w j0 hw
        have : j ∈ j0 :: attempting s := hperm.mem_iff.mp hj
        rcases List.mem_cons.mp this with rfl | hmem
        · right
          rw [hp]
          exact List.mem_cons_self _ _
        · exact Or.inl hmem
    | finish w j0 _ hw =>
        have hperm := filterMap_id_set_none s.workers w j0 hw
        left
        exact hperm.mem_iff.mpr (List.mem_cons_of_mem _ hj)
  · intro hj hj'
    cases hstep with
    | take w j0 rest _ hp hw =>
        have hperm := filterMap_id_set_some s.workers w j0 hw
        exact absurd (hperm.mem_iff.mpr (List.mem_cons_of_mem _ hj)) hj'
    | finish w j0 _ hw =>
        have hperm := filterMap_id_set_none s.workers w j0 hw
        have : j ∈ j0 :: attempting (⟨s.pending, s.workers.set w none,
            s.emitted ++ [workerResult M j0 (oc j0).1 (oc j0).2]⟩ : PoolState) :=
          hperm.mem_iff.mp hj
        rcases List.mem_cons.mp this with rfl | hmem
        · rfl
        · exact absurd hmem hj'

theorem stepW9 : Step 0 ocW (initState 2 2) (⟨[2], [some 1, none], []⟩ : PoolState) :=
  Step.take 0 1 [2] (initState 2 2) rfl rfl

/-- C9 witness: the first step of a 2-request, 2-worker execution. -/
theorem C9_concurrency_bound_witness :
    Reachable 0 ocW 2 2 (initState 2 2) ∧
    Step 0 ocW (initState 2 2) (⟨[2], [some 1, none], []⟩ : PoolState) ∧
    ((attempting (initState 2 2)).length ≤ 2 ∧
     (attempting (⟨[2], [some 1, none], []⟩ : PoolState)).length ≤ 2 ∧
     (1 ∈ attempting (⟨[2], [some 1, none], []⟩ : PoolState) →
        1 ∈ attempting (initState 2 2) ∨ 1 ∈ (initState 2 2).pending) ∧
     (1 ∈ attempting (initState 2 2) →
        1 ∉ attempting (⟨[2], [some 1, none], []⟩ : PoolState) →
        (⟨[2], [some 1, none], []⟩ : PoolState).emitted =
          (initState 2 2).emitted ++ [workerResult 0 1 (ocW 1).1 (ocW 1).2])) :=
  ⟨Relation.ReflTransGen.refl, stepW9,
    C9_concurrency_bound 0 2 2 ocW (initState 2 2) _ 1
      Relation.ReflTransGen.refl stepW9⟩

end LoadTester
